import Mathlib

/-!
Shallow embedding of the SISPIN data-management core
(`src/js/data-management.js`) and the password-strength check of the
security module (`src/unnamed/part_000`, `SecurityService.validatePassword`).

JavaScript values are modelled by the inductive `JSVal`.  Conventions of
the embedding, fixed once here:

* Machine numbers are modelled as `Int`.  Every numeric literal appearing
  in the verified code paths (scores, timestamps, config values) is an
  integer, so no floating-point behaviour is lost on the inputs the
  theorems below evaluate.
* Property access `o[k]` throws a `TypeError` in JavaScript when `o` is
  `null` or `undefined`; this is modelled by `jsGet` returning
  `Except Unit JSVal` (`.error ()` = exception).  Optional chaining
  `o?.[k]` and access on other primitives never throw and are modelled by
  the total `getProp`.
* `===` on two objects is reference equality; this heap-less value model
  has no aliasing, so two object operands are modelled as never
  identical (`strictEq` returns `false` on a pair of objects).  No claim
  compares object-valued fields.
* External collaborators (AppConfig, AuthService's current identity and
  user table, the backend SDK, the clock) are passed as explicit
  parameters; they are outside the verified core per the specification.
-/

inductive JSVal : Type where
  | undefined : JSVal
  | null : JSVal
  | bool : Bool → JSVal
  | num : Int → JSVal
  | str : String → JSVal
  | obj : List (String × JSVal) → JSVal
deriving Repr

/-- Truthiness of a JavaScript value (`NaN` is absent from the model). -/
def falsy : JSVal → Bool
  | .undefined => true
  | .null => true
  | .bool b => !b
  | .num n => n == 0
  | .str s => s == ""
  | .obj _ => false

def truthy (v : JSVal) : Bool := !falsy v

/-- Strict equality `===`.  Object operands compare by reference; in this
value model distinct occurrences are distinct references, hence `false`. -/
def strictEq : JSVal → JSVal → Bool
  | .undefined, .undefined => true
  | .null, .null => true
  | .bool a, .bool b => a == b
  | .num a, .num b => a == b
  | .str a, .str b => a == b
  | _, _ => false

/-- First binding of `k` in an object's field list (JS objects have unique
keys; first match is the faithful reading). -/
def lookupField : List (String × JSVal) → String → JSVal
  | [], _ => .undefined
  | (k', v) :: rest, k => if k' = k then v else lookupField rest k

/-- Total property access: `undefined` on primitives and missing keys
(used for optional chaining and for access on known-object values). -/
def getProp : JSVal → String → JSVal
  | .obj fs, k => lookupField fs k
  | _, _ => .undefined

/-- Property access `o[k]` as it appears in the source: throws
(`.error ()`) when the receiver is `null` or `undefined`. -/
def jsGet (v : JSVal) (k : String) : Except Unit JSVal :=
  match v with
  | .null => .error ()
  | .undefined => .error ()
  | v => .ok (getProp v k)

/-- String coercion as performed by `String(v)` / regexp `.test`. -/
def jsToString : JSVal → String
  | .undefined => "undefined"
  | .null => "null"
  | .bool true => "true"
  | .bool false => "false"
  | .num n => toString n
  | .str s => s
  | .obj _ => "[object Object]"

/-- The JavaScript `a || b` (first operand when truthy, else second). -/
def jsOr (a b : JSVal) : JSVal := if truthy a then a else b

/-- Value of a leading decimal-digit run (`parseFloat` on the integer
literals the verified paths use; a fractional tail is out of scope of the
integer number model). -/
def digitsPrefixVal : List Char → Nat → Bool → Option Nat
  | [], acc, seen => if seen then some acc else none
  | c :: rest, acc, seen =>
    if c.isDigit then digitsPrefixVal rest (acc * 10 + (c.toNat - 48)) true
    else if seen then some acc else none

def parseLeadingNum (s : String) : Option Int :=
  match s.toList with
  | '-' :: rest => (digitsPrefixVal rest 0 false).map (fun n => -(n : Int))
  | '+' :: rest => (digitsPrefixVal rest 0 false).map (fun n => (n : Int))
  | cs => (digitsPrefixVal cs 0 false).map (fun n => (n : Int))

/-- `parseFloat(v)`; `none` models `NaN`. -/
def parseFloatJS : JSVal → Option Int
  | .num n => some n
  | v => parseLeadingNum (jsToString v)

/-- Whole-string match of `/^\d{len}$/` after string coercion. -/
def digitString (len : Nat) (s : String) : Bool :=
  s.length == len && s.toList.all Char.isDigit

def hasLower (s : String) : Bool := s.toList.any (fun c => 'a' ≤ c && c ≤ 'z')
def hasUpper (s : String) : Bool := s.toList.any (fun c => 'A' ≤ c && c ≤ 'Z')
def hasDigitChar (s : String) : Bool := s.toList.any (fun c => '0' ≤ c && c ≤ '9')

/-- The relational `a >= b` on the operand shapes the source compares
(time-of-day strings in the journal validator): two strings compare
lexicographically, two numbers numerically, mixed shapes coerce through
`NaN` and yield `false`. -/
def jsGe (a b : JSVal) : Bool :=
  match a, b with
  | .str x, .str y => decide (y ≤ x)
  | .num x, .num y => decide (y ≤ x)
  | _, _ => false

/-- The `.length` property read by `validatePassword`: defined for
strings, `undefined` (hence failing any `<` comparison) otherwise. -/
def jsLength : JSVal → Option Nat
  | .str s => some s.length
  | _ => none

/-- `undefined < n` is `false` in JavaScript (`NaN` comparison). -/
def lengthLt (o : Option Nat) (m : Nat) : Bool :=
  match o with
  | some l => decide (l < m)
  | none => false

structure ValidationResult where
  valid : Bool
  message : Option String := none
deriving Repr, DecidableEq

/-- The result object a validator returns on a missing required field. -/
def missingField (f : String) : ValidationResult :=
  ⟨false, some (f ++ " wajib diisi")⟩

/-- The `for (const field of required) if (!data[field]) ...` loop shared
by every validator: first required field with a falsy value, if any.
Throws exactly when the candidate is `null`/`undefined` and the list is
nonempty. -/
def firstMissing (data : JSVal) : List String → Except Unit (Option String)
  | [] => .ok none
  | f :: fs => do
    let v ← jsGet data f
    if falsy v then pure (some f) else firstMissing data fs

/-- SecurityService.validatePassword (src/unnamed/part_000:109-144).
`minLength` is `AppConfig.get('security.password_min_length')`. -/
def validatePassword (minLength : Nat) (password : JSVal) : ValidationResult :=
  if lengthLt (jsLength password) minLength then
    ⟨false, some ("Password minimal " ++ toString minLength ++ " karakter")⟩
  else if !hasLower (jsToString password) then
    ⟨false, some "Password harus mengandung huruf kecil"⟩
  else if !hasUpper (jsToString password) then
    ⟨false, some "Password harus mengandung huruf besar"⟩
  else if !hasDigitChar (jsToString password) then
    ⟨false, some "Password harus mengandung angka"⟩
  else
    ⟨true, some "Password kuat"⟩

/-- DataService.validateGuruData.  `users` is `AuthService.users` (an
object whose values are user-record objects), `minLength` the password
policy configuration. -/
def validateGuruData (minLength : Nat) (users : List (String × JSVal))
    (data : JSVal) : Except Unit ValidationResult := do
  match ← firstMissing data ["title", "nip", "mapel", "role", "username", "password"] with
  | some f => pure (missingField f)
  | none =>
    let nip ← jsGet data "nip"
    if !digitString 18 (jsToString nip) then
      pure ⟨false, some "NIP harus 18 digit"⟩
    else
      let pw ← jsGet data "password"
      let pv := validatePassword minLength pw
      if !pv.valid then
        pure pv
      else
        let un ← jsGet data "username"
        let urec := lookupField users (jsToString un)
        if truthy urec && !strictEq (getProp urec "username") un then
          pure ⟨false, some "Username sudah digunakan"⟩
        else
          pure ⟨true, none⟩

/-- DataService.validateSiswaData. -/
def validateSiswaData (data : JSVal) : Except Unit ValidationResult := do
  match ← firstMissing data ["title", "nisn", "jenis_kelamin", "class"] with
  | some f => pure (missingField f)
  | none =>
    let nisn ← jsGet data "nisn"
    if !digitString 10 (jsToString nisn) then
      pure ⟨false, some "NISN harus 10 digit"⟩
    else
      let jk ← jsGet data "jenis_kelamin"
      if !(["L", "P"].any (fun x => strictEq jk (.str x))) then
        pure ⟨false, some "Jenis kelamin harus L atau P"⟩
      else
        pure ⟨true, none⟩

/-- DataService.validateKelasData. -/
def validateKelasData (data : JSVal) : Except Unit ValidationResult := do
  match ← firstMissing data ["title", "tingkat", "jurusan"] with
  | some f => pure (missingField f)
  | none =>
    let t ← jsGet data "tingkat"
    if !(["X", "XI", "XII"].any (fun x => strictEq t (.str x))) then
      pure ⟨false, some "Tingkat harus X, XI, atau XII"⟩
    else
      pure ⟨true, none⟩

/-- DataService.validateIntraData. -/
def validateIntraData (data : JSVal) : Except Unit ValidationResult := do
  match ← firstMissing data ["judul_modul", "mata_pelajaran", "kelas", "fase", "penulis"] with
  | some f => pure (missingField f)
  | none => pure ⟨true, none⟩

/-- DataService.validateJurnalData. -/
def validateJurnalData (data : JSVal) : Except Unit ValidationResult := do
  match ← firstMissing data ["nama_guru", "kelas", "hari", "tanggal", "mata_pelajaran", "materi_pokok"] with
  | some f => pure (missingField f)
  | none =>
    let wm ← jsGet data "waktu_mulai"
    let ws ← jsGet data "waktu_selesai"
    if truthy wm && truthy ws then
      if jsGe wm ws then
        pure ⟨false, some "Waktu mulai harus sebelum waktu selesai"⟩
      else
        pure ⟨true, none⟩
    else
      pure ⟨true, none⟩

/-- DataService.validateAbsensiData. -/
def validateAbsensiData (data : JSVal) : Except Unit ValidationResult := do
  match ← firstMissing data ["student_name", "class", "status", "date"] with
  | some f => pure (missingField f)
  | none =>
    let st ← jsGet data "status"
    if !(["Hadir", "Sakit", "Izin", "Alpha"].any (fun x => strictEq st (.str x))) then
      pure ⟨false, some "Status tidak valid"⟩
    else
      pure ⟨true, none⟩

/-- DataService.validateNilaiData. -/
def validateNilaiData (data : JSVal) : Except Unit ValidationResult := do
  match ← firstMissing data ["student_name", "class", "mata_pelajaran", "jenis_penilaian", "nilai", "date"] with
  | some f => pure (missingField f)
  | none =>
    let nv ← jsGet data "nilai"
    match parseFloatJS nv with
    | none => pure ⟨false, some "Nilai harus antara 0 dan 100"⟩
    | some n =>
      if n < 0 || n > 100 then
        pure ⟨false, some "Nilai harus antara 0 dan 100"⟩
      else
        pure ⟨true, none⟩

/-- DataService.validatePerilakuData. -/
def validatePerilakuData (data : JSVal) : Except Unit ValidationResult := do
  match ← firstMissing data ["student_name", "class", "jenis_perilaku", "catatan", "date"] with
  | some f => pure (missingField f)
  | none =>
    let jp ← jsGet data "jenis_perilaku"
    if !(["Positif", "Negatif", "Netral"].any (fun x => strictEq jp (.str x))) then
      pure ⟨false, some "Jenis perilaku tidak valid"⟩
    else
      pure ⟨true, none⟩

/-- DataService.validateBKAbsensiData. -/
def validateBKAbsensiData (data : JSVal) : Except Unit ValidationResult := do
  match ← firstMissing data ["student_name", "class", "status", "date", "waktu"] with
  | some f => pure (missingField f)
  | none =>
    let st ← jsGet data "status"
    if !(["Hadir", "Sakit", "Izin", "Alpha", "Terlambat"].any (fun x => strictEq st (.str x))) then
      pure ⟨false, some "Status tidak valid"⟩
    else
      pure ⟨true, none⟩

/-- DataService.validateBKPelanggaranData. -/
def validateBKPelanggaranData (data : JSVal) : Except Unit ValidationResult := do
  match ← firstMissing data ["student_name", "class", "kategori_pelanggaran", "jenis_pelanggaran", "lokasi", "kronologi", "tindak_lanjut"] with
  | some f => pure (missingField f)
  | none =>
    let kat ← jsGet data "kategori_pelanggaran"
    if !(["Ringan", "Sedang", "Berat"].any (fun x => strictEq kat (.str x))) then
      pure ⟨false, some "Kategori pelanggaran tidak valid"⟩
    else
      pure ⟨true, none⟩

/-- DataService.validateData: dispatch on the type tag, falling back to
the generic title/content check for unknown types (`!data.title ||
!data.content` short-circuits, so a null candidate throws on the first
access). -/
def validateData (minLength : Nat) (users : List (String × JSVal))
    (type : String) (data : JSVal) : Except Unit ValidationResult :=
  match type with
  | "guru" => validateGuruData minLength users data
  | "siswa" => validateSiswaData data
  | "kelas" => validateKelasData data
  | "intra" => validateIntraData data
  | "jurnal" => validateJurnalData data
  | "absensi" => validateAbsensiData data
  | "nilai" => validateNilaiData data
  | "perilaku" => validatePerilakuData data
  | "bk_absensi" => validateBKAbsensiData data
  | "bk_pelanggaran" => validateBKPelanggaranData data
  | _ => do
    let t ← jsGet data "title"
    if falsy t then
      pure ⟨false, some "Title dan content wajib diisi"⟩
    else
      let c ← jsGet data "content"
      if falsy c then
        pure ⟨false, some "Title dan content wajib diisi"⟩
      else
        pure ⟨true, none⟩

/-! ## JSON serialization (cache keys) -/

def jsonEscapeChar (c : Char) : String :=
  if c = '"' then "\\\"" else if c = '\\' then "\\\\" else String.singleton c

def jsonQuote (s : String) : String :=
  "\"" ++ String.join (s.toList.map jsonEscapeChar) ++ "\""

mutual

/-- JSON.stringify; `none` models the `undefined` result (an `undefined`
input), under which an object entry is omitted. -/
def stringifyJson : JSVal → Option String
  | .undefined => none
  | .null => some "null"
  | .bool true => some "true"
  | .bool false => some "false"
  | .num n => some (toString n)
  | .str s => some (jsonQuote s)
  | .obj fs => some ("\x7b" ++ String.intercalate "," (stringifyEntries fs) ++ "\x7d")

def stringifyEntries : List (String × JSVal) → List String
  | [] => []
  | (k, v) :: rest =>
    match stringifyJson v with
    | none => stringifyEntries rest
    | some sv => (jsonQuote k ++ ":" ++ sv) :: stringifyEntries rest

end

/-! ## Timestamps (`new Date(x)` on the shapes the sort path meets) -/

/-- Days since the Unix epoch for a civil date (standard era-based
computation; divisions truncate toward zero exactly as the source
algorithm and Lean's `Int` division do). -/
def daysFromCivil (y m d : Int) : Int :=
  let y2 := if m ≤ 2 then y - 1 else y
  let era := (if 0 ≤ y2 then y2 else y2 - 399) / 400
  let yoe := y2 - era * 400
  let mp := (m + 9) % 12
  let doy := (153 * mp + 2) / 5 + d - 1
  let doe := yoe * 365 + yoe / 4 - yoe / 100 + doy
  era * 146097 + doe - 719468

/-- Split a character list at every occurrence of `c` (the string-level
`split` the source applies to single-character separators). -/
def splitCharAux (c : Char) : List Char → List Char → List (List Char)
  | [], acc => [acc.reverse]
  | x :: rest, acc =>
    if x = c then acc.reverse :: splitCharAux c rest []
    else splitCharAux c rest (x :: acc)

def splitChar (c : Char) (s : String) : List String :=
  (splitCharAux c s.toList []).map String.mk

def parseNatDigits (s : String) : Option Nat :=
  if s.toList ≠ [] ∧ s.toList.all Char.isDigit then
    digitsPrefixVal s.toList 0 false
  else
    none

/-- Parse of an ISO `YYYY-MM-DD` date string to a millisecond UTC
timestamp, `none` (= `NaN`, an invalid date) otherwise.  The verified
code paths only construct dates from such strings. -/
def parseDateString (s : String) : Option Int := do
  match splitChar '-' s with
  | [ys, ms, ds] =>
    if ys.length = 4 ∧ ms.length = 2 ∧ ds.length = 2 then
      let y ← parseNatDigits ys
      let m ← parseNatDigits ms
      let d ← parseNatDigits ds
      if 1 ≤ m ∧ m ≤ 12 ∧ 1 ≤ d ∧ d ≤ 31 then
        some (daysFromCivil y m d * 86400000)
      else
        none
    else
      none
  | _ => none

/-- `new Date(v).getTime()`: `none` models an invalid date (`NaN`). -/
def dateParse : JSVal → Option Int
  | .num n => some n
  | .str s => parseDateString s
  | .null => some 0
  | .bool b => some (if b then 1 else 0)
  | .undefined => none
  | .obj _ => none

/-- The sort key of `getFilteredData`: `new Date(r.createdAt || r.date)`.
Note the source never consults `updatedAt` here. -/
def effTimestamp (r : JSVal) : Option Int :=
  dateParse (jsOr (getProp r "createdAt") (getProp r "date"))

/-- The comparator `(a, b) => new Date(b.createdAt || b.date) -
new Date(a.createdAt || a.date)`; a `NaN` comparator value is treated as
`+0` per the ECMAScript SortCompare clause. -/
def sortCompare (a b : JSVal) : Int :=
  match effTimestamp b, effTimestamp a with
  | some tb, some ta => tb - ta
  | _, _ => 0

/-- Element `a` sorts no later than `b` (comparator value `≤ 0`);
stable sorting by this relation models `Array.prototype.sort`, which is
specified stable. -/
def jsSortRel (a b : JSVal) : Prop := sortCompare a b ≤ 0

instance : DecidableRel jsSortRel := fun a b => by
  unfold jsSortRel; infer_instance

/-! ## State of the data service and its collaborators -/

/-- The viewer identity supplied by the Auth collaborator
(`AuthService.currentUser`): a role and a display name. -/
structure Identity where
  role : String
  name : String
deriving Repr, DecidableEq

/-- The configuration values the core reads through `AppConfig.get`. -/
structure Config where
  cache_enabled : Bool
  cache_ttl : Int
  max_data_items : Nat
  password_min_length : Nat
deriving Repr

structure CacheEntry where
  data : List JSVal
  timestamp : Int
deriving Repr

/-- Mutable state touched by the data-management core: the in-memory
collection, the query cache (a `Map`, modelled as an association list in
insertion order), the current identity and the `AuthService.users`
credential table. -/
structure DSState where
  allData : List JSVal
  cache : List (String × CacheEntry)
  currentUser : Option Identity
  users : List (String × JSVal)
deriving Repr

/-- `Map.set` / object property assignment: replace in place when the key
exists, append otherwise (JS preserves first-insertion position). -/
def mapSet : List (String × α) → String → α → List (String × α)
  | [], k, v => [(k, v)]
  | (k', v') :: rest, k, v =>
    if k' = k then (k, v) :: rest else (k', v') :: mapSet rest k v

def lookupOpt : List (String × α) → String → Option α
  | [], _ => none
  | (k', v) :: rest, k => if k' = k then some v else lookupOpt rest k

/-- Spread `{...base, ...extra}` / `Object.assign(base, extra)`: each
`extra` binding overwrites in place or appends. -/
def spreadInto (base extra : List (String × JSVal)) : List (String × JSVal) :=
  extra.foldl (fun acc kv => mapSet acc kv.1 kv.2) base

/-- Own enumerable fields contributed by spreading a value: objects give
their fields, primitives and `null`/`undefined` give nothing. -/
def spreadFields : JSVal → List (String × JSVal)
  | .obj fs => fs
  | _ => []

/-! ## Query cache (DataService.getCachedData / setCachedData /
invalidateCache) -/

def getCachedData (cfg : Config) (s : DSState) (key : String) (now : Int) :
    Option (List JSVal) :=
  if !cfg.cache_enabled then none
  else
    match lookupOpt s.cache key with
    | some c => if now - c.timestamp < cfg.cache_ttl then some c.data else none
    | none => none

def setCachedData (cfg : Config) (s : DSState) (key : String)
    (data : List JSVal) (now : Int) : DSState :=
  if !cfg.cache_enabled then s
  else { s with cache := mapSet s.cache key ⟨data, now⟩ }

def invalidateCache (s : DSState) : DSState := { s with cache := [] }

/-! ## Read path (DataService.getFilteredData) -/

def cacheKey (type : String) (filters : List (String × JSVal)) : String :=
  type ++ "_" ++ (stringifyJson (.obj filters)).getD "undefined"

/-- The role-based visibility filter applied inside `getFilteredData`. -/
def visibleTo (user : Option Identity) (l : List JSVal) : List JSVal :=
  match user with
  | none => l
  | some u =>
    if u.role = "siswa" then
      l.filter (fun d => strictEq (getProp d "approved") (.bool true))
    else if u.role = "guru" || u.role = "bk" then
      l.filter (fun d => strictEq (getProp d "author") (.str u.name))
    else
      l

/-- One step of the dotted-path walk `itemValue = itemValue?.[k]`. -/
def optGet (v : JSVal) (k : String) : JSVal :=
  match v with
  | .null => .undefined
  | .undefined => .undefined
  | v => getProp v k

def applyOneFilter (key : String) (value : JSVal) (l : List JSVal) : List JSVal :=
  if !strictEq value .undefined && !strictEq value (.str "") then
    l.filter (fun item =>
      if key.toList.any (fun c => c = '.') then
        strictEq ((splitChar '.' key).foldl optGet item) value
      else
        strictEq (getProp item key) value)
  else
    l

def applyFilters (filters : List (String × JSVal)) (l : List JSVal) : List JSVal :=
  filters.foldl (fun acc kv => applyOneFilter kv.1 kv.2 acc) l

/-- The cache-miss pipeline of `getFilteredData` before sorting: filter
the collection by type tag, apply the role-based visibility filter, then
the user-supplied filters. -/
def queryPipeline (s : DSState) (type : String)
    (filters : List (String × JSVal)) : List JSVal :=
  applyFilters filters
    (visibleTo s.currentUser
      (s.allData.filter (fun d => strictEq (getProp d "type") (.str type))))

/-- DataService.getFilteredData: returns the result list and the updated
state (`now` is `Date.now()`).  A cache hit (even an empty cached list,
which is truthy) is returned untouched; a miss runs the pipeline, sorts
with the stable `Array.prototype.sort` and caches the result. -/
def getFilteredData (cfg : Config) (s : DSState) (type : String)
    (filters : List (String × JSVal)) (now : Int) : List JSVal × DSState :=
  let key := cacheKey type filters
  match getCachedData cfg s key now with
  | some cached => (cached, s)
  | none =>
    let sorted := List.insertionSort jsSortRel (queryPipeline s type filters)
    (sorted, setCachedData cfg s key sorted now)

/-! ## Write path (create / update / delete) and resynchronization -/

/-- Outcome reported by the backend collaborator (`window.dataSdk`). -/
structure BackendResult where
  isOk : Bool
  data : JSVal := .undefined
deriving Repr

/-- DataService.canUpdateData. -/
def canUpdateData (s : DSState) (data : JSVal) : Bool :=
  match s.currentUser with
  | none => false
  | some u =>
    if u.role = "admin" then true
    else strictEq (getProp data "author") (.str u.name)

/-- DataService.canDeleteData. -/
def canDeleteData (s : DSState) (data : JSVal) : Bool :=
  match s.currentUser with
  | none => false
  | some u =>
    if u.role = "admin" then true
    else strictEq (getProp data "author") (.str u.name)

/-- The object literal `{type, ...data, author: ..., createdAt: ...,
approved: ...}` built by `createData`. -/
def buildNewData (type : String) (d : List (String × JSVal)) (u : Identity)
    (nowIso : String) : JSVal :=
  .obj (spreadInto [("type", .str type)]
    (d ++ [("author", .str u.name), ("createdAt", .str nowIso),
           ("approved", .bool (u.role == "admin" || u.role == "kepsek"))]))

/-- DataService.createData.  `bk` is the backend collaborator's `create`
endpoint, `nowIso` the clock's ISO timestamp; every thrown error is the
`.error` component and the state is the second component.  A `null`
current user would make the source throw a `TypeError` reading `.name`. -/
def createData (cfg : Config) (s : DSState) (type : String)
    (d : List (String × JSVal)) (bk : JSVal → BackendResult)
    (nowIso : String) : Except String JSVal × DSState :=
  match validateData cfg.password_min_length s.users type (.obj d) with
  | .error _ => (.error "TypeError", s)
  | .ok v =>
    if !v.valid then (.error (v.message.getD "undefined"), s)
    else if cfg.max_data_items ≤ s.allData.length then
      (.error "Batas maksimum data telah tercapai", s)
    else
      match s.currentUser with
      | none => (.error "TypeError", s)
      | some u =>
        let newData := buildNewData type d u nowIso
        let r := bk newData
        if r.isOk then (.ok r.data, invalidateCache s)
        else (.error "Gagal menyimpan data", s)

def findByBackendId (l : List JSVal) (id : JSVal) : Option JSVal :=
  l.find? (fun d => strictEq (getProp d "__backendId") id)

/-- The merged record `{...existingData, ...data, updatedAt: ...}` that
`updateData` sends to the backend. -/
def mergeForUpdate (existing : JSVal) (d : List (String × JSVal))
    (nowIso : String) : JSVal :=
  .obj (spreadInto (spreadFields existing) (d ++ [("updatedAt", .str nowIso)]))

/-- DataService.updateData.  Note: no validator is invoked anywhere on
this path. -/
def updateData (s : DSState) (id : JSVal) (d : List (String × JSVal))
    (bk : JSVal → BackendResult) (nowIso : String) :
    Except String JSVal × DSState :=
  match findByBackendId s.allData id with
  | none => (.error "Data tidak ditemukan", s)
  | some existing =>
    if !canUpdateData s existing then
      (.error "Tidak memiliki izin untuk mengupdate data ini", s)
    else
      let payload := mergeForUpdate existing d nowIso
      let r := bk payload
      if r.isOk then (.ok r.data, invalidateCache s)
      else (.error "Gagal mengupdate data", s)

/-- DataService.deleteData. -/
def deleteData (s : DSState) (id : JSVal) (bk : JSVal → BackendResult) :
    Except String Bool × DSState :=
  match findByBackendId s.allData id with
  | none => (.error "Data tidak ditemukan", s)
  | some existing =>
    if !canDeleteData s existing then
      (.error "Tidak memiliki izin untuk menghapus data ini", s)
    else if (bk existing).isOk then (.ok true, invalidateCache s)
    else (.error "Gagal menghapus data", s)

/-- The five built-in seed accounts of `updateUsersFromData`. -/
def defaultUsers : List (String × JSVal) :=
  [("admin", .obj [("password", .str "admin123"), ("role", .str "admin"),
      ("name", .str "Administrator")]),
   ("kepsek", .obj [("password", .str "kepsek123"), ("role", .str "kepsek"),
      ("name", .str "Kepala Sekolah")]),
   ("guru", .obj [("password", .str "guru123"), ("role", .str "guru"),
      ("name", .str "Guru Matematika")]),
   ("bk", .obj [("password", .str "bk123"), ("role", .str "bk"),
      ("name", .str "Guru BK")]),
   ("siswa", .obj [("password", .str "siswa123"), ("role", .str "siswa"),
      ("name", .str "Siswa/Orang Tua")])]

/-- DataService.updateUsersFromData: `Object.assign` the defaults over
the existing table, then add an entry per teacher record carrying a
truthy username and password. -/
def updateUsersFromData (users : List (String × JSVal)) (data : List JSVal) :
    List (String × JSVal) :=
  let withDefaults := spreadInto users defaultUsers
  let guruUsers := data.filter (fun d =>
    strictEq (getProp d "type") (.str "guru") &&
    truthy (getProp d "username") && truthy (getProp d "password"))
  guruUsers.foldl (fun acc g =>
    mapSet acc (jsToString (getProp g "username"))
      (.obj [("password", getProp g "password"),
             ("role", jsOr (getProp g "role") (.str "guru")),
             ("name", getProp g "title"),
             ("nip", getProp g "nip"),
             ("mapel", getProp g "mapel")])) withDefaults

/-- DataService.handleDataChange: full resynchronization from the
backend's change notification — replace the collection, rebuild the
credential table, invalidate the cache.  The trailing UI refresh is an
external side effect. -/
def handleDataChange (s : DSState) (data : List JSVal) : DSState :=
  { s with
    allData := data
    users := updateUsersFromData s.users data
    cache := [] }

/-! ## Derived notions used by the theorems -/

/-- Values on which property access throws. -/
def nullish : JSVal → Bool
  | .null => true
  | .undefined => true
  | _ => false

/-- Pure counterpart of the required-field loop: the first field of the
list whose value on `data` is falsy. -/
def firstFalsyField (data : JSVal) : List String → Option String
  | [] => none
  | f :: fs => if falsy (getProp data f) then some f else firstFalsyField data fs

/-- The JavaScript `delete data[field]` on an object candidate (identity
on primitives, which carry no own properties). -/
def delProp : JSVal → String → JSVal
  | .obj fs, k => .obj (fs.filter (fun kv => kv.1 ≠ k))
  | v, _ => v

/-- The required-field list of each dispatched validator, per the source. -/
def requiredFields : String → List String
  | "guru" => ["title", "nip", "mapel", "role", "username", "password"]
  | "siswa" => ["title", "nisn", "jenis_kelamin", "class"]
  | "kelas" => ["title", "tingkat", "jurusan"]
  | "intra" => ["judul_modul", "mata_pelajaran", "kelas", "fase", "penulis"]
  | "jurnal" => ["nama_guru", "kelas", "hari", "tanggal", "mata_pelajaran", "materi_pokok"]
  | "absensi" => ["student_name", "class", "status", "date"]
  | "nilai" => ["student_name", "class", "mata_pelajaran", "jenis_penilaian", "nilai", "date"]
  | "perilaku" => ["student_name", "class", "jenis_perilaku", "catatan", "date"]
  | "bk_absensi" => ["student_name", "class", "status", "date", "waktu"]
  | "bk_pelanggaran" => ["student_name", "class", "kategori_pelanggaran", "jenis_pelanggaran", "lokasi", "kronologi", "tindak_lanjut"]
  | _ => ["title", "content"]

/-- The ten record types with a dedicated validator. -/
def knownTypes : List String :=
  ["guru", "siswa", "kelas", "intra", "jurnal", "absensi", "nilai",
   "perilaku", "bk_absensi", "bk_pelanggaran"]

/-- Modelled from the spec's words (for comparison with the code's
`effTimestamp` only): the effective timestamp of a record is its
`updatedAt` field, falling back to `createdAt` and then `date`. -/
def specEffTimestamp (r : JSVal) : Option Int :=
  dateParse (jsOr (getProp r "updatedAt")
    (jsOr (getProp r "createdAt") (getProp r "date")))

/-- Sort-key comparison on the `getD 0` view of the timestamps; for
records with valid timestamps it coincides with the comparator relation. -/
def keyLe (a b : JSVal) : Prop :=
  (effTimestamp b).getD 0 ≤ (effTimestamp a).getD 0

/-- Membership of one timestamp equivalence class (used to state
stability: the sort preserves the relative order within each class). -/
def tsKeyP (k : Int) (r : JSVal) : Bool := effTimestamp r == some k

/-! ## Concrete instances used by individual counterexamples and
witnesses (one group per claim; no sharing across claims) -/

def c1Rec : JSVal :=
  .obj [("type", .str "nilai"), ("createdAt", .str "2024-01-01"),
        ("approved", .bool false)]

def c1Cfg : Config := ⟨true, 300000, 1000, 8⟩

def c1AdminState : DSState := ⟨[c1Rec], [], some ⟨"admin", "Administrator"⟩, []⟩

/-- State after the admin's query cached the unfiltered list. -/
def c1CachedState : DSState := (getFilteredData c1Cfg c1AdminState "nilai" [] 0).2

/-- Same state once a student identity is the current viewer. -/
def c1SiswaState : DSState :=
  { c1CachedState with currentUser := some ⟨"siswa", "Siswa/Orang Tua"⟩ }

def c1wRecA : JSVal :=
  .obj [("type", .str "nilai"), ("createdAt", .str "2024-01-01"),
        ("approved", .bool true)]

def c1wRecB : JSVal :=
  .obj [("type", .str "nilai"), ("createdAt", .str "2024-02-01"),
        ("approved", .bool false)]

def c1wState : DSState := ⟨[c1wRecA, c1wRecB], [], some ⟨"siswa", "S"⟩, []⟩

def c2Cfg : Config := ⟨true, 300000, 1000, 8⟩

/-- Older `createdAt` but the newest `updatedAt` of the collection. -/
def c2RecA : JSVal :=
  .obj [("type", .str "t"), ("createdAt", .str "2024-01-01"),
        ("updatedAt", .str "2024-06-01")]

def c2RecB : JSVal := .obj [("type", .str "t"), ("createdAt", .str "2024-02-01")]

def c2State : DSState := ⟨[c2RecA, c2RecB], [], none, []⟩

def c2wRec1 : JSVal := .obj [("type", .str "t"), ("createdAt", .str "2024-01-01")]
def c2wRec2 : JSVal := .obj [("type", .str "t"), ("createdAt", .str "2024-03-01")]
def c2wRec3 : JSVal := .obj [("type", .str "t"), ("createdAt", .str "2024-02-01")]

def c2wState : DSState := ⟨[c2wRec1, c2wRec2, c2wRec3], [], none, []⟩

def c3wCfg : Config := ⟨true, 300000, 10, 8⟩

/-- A state holding a stale cache entry, to be cleared by the mutation. -/
def c3wState : DSState :=
  ⟨[], [("stale", ⟨[], 0⟩)], some ⟨"admin", "Administrator"⟩, []⟩

def c3wData : List (String × JSVal) := [("title", .str "t"), ("content", .str "c")]

def c4wRec : JSVal :=
  .obj [("__backendId", .str "id1"), ("type", .str "jurnal"),
        ("author", .str "Alice")]

def c4wState : DSState := ⟨[c4wRec], [], some ⟨"guru", "Budi"⟩, []⟩

def c5wCfg : Config := ⟨true, 300000, 10, 8⟩

def c5wState : DSState := ⟨[], [], some ⟨"guru", "Budi"⟩, []⟩

def c5wData : List (String × JSVal) := [("title", .str "t"), ("content", .str "c")]

/-- A field set every `nilai` domain check accepts. -/
def c7wRec : JSVal :=
  .obj [("student_name", .str "Andi"), ("class", .str "10A"),
        ("mata_pelajaran", .str "Matematika"), ("jenis_penilaian", .str "Quiz"),
        ("nilai", .num 85), ("date", .str "2024-05-01")]

def c9wRec : JSVal :=
  .obj [("__backendId", .str "g1"), ("type", .str "nilai"),
        ("author", .str "Budi"), ("student_name", .str "Andi"),
        ("class", .str "10A"), ("mata_pelajaran", .str "Matematika"),
        ("jenis_penilaian", .str "Quiz"), ("nilai", .num 85),
        ("date", .str "2024-05-01"), ("createdAt", .str "2024-05-01")]

def c9wState : DSState := ⟨[c9wRec], [], some ⟨"guru", "Budi"⟩, []⟩

/-- A partial update whose merge violates the score range rule. -/
def c9wUpd : List (String × JSVal) := [("nilai", .num 150)]

/-- The valid `nilai` field set with the score replaced by the number 0. -/
def c10wRec : JSVal :=
  .obj [("student_name", .str "Andi"), ("class", .str "10A"),
        ("mata_pelajaran", .str "Matematika"), ("jenis_penilaian", .str "Quiz"),
        ("nilai", .num 0), ("date", .str "2024-05-01")]

/-! ## Basic lemmas -/

theorem getCachedData_of_empty (cfg : Config) (s : DSState) (key : String)
    (now : Int) (h : s.cache = []) : getCachedData cfg s key now = none := by
  unfold getCachedData
  rw [h]
  cases cfg.cache_enabled <;> simp [lookupOpt]

theorem mem_applyOneFilter {x : JSVal} {k : String} {v : JSVal}
    {l : List JSVal} (h : x ∈ applyOneFilter k v l) : x ∈ l := by
  unfold applyOneFilter at h
  split at h
  · exact (List.mem_filter.mp h).1
  · exact h

theorem applyFilters_cons (kv : String × JSVal) (rest : List (String × JSVal))
    (l : List JSVal) :
    applyFilters (kv :: rest) l = applyFilters rest (applyOneFilter kv.1 kv.2 l) :=
  rfl

theorem mem_applyFilters {x : JSVal} {fs : List (String × JSVal)}
    {l : List JSVal} (h : x ∈ applyFilters fs l) : x ∈ l := by
  induction fs generalizing l with
  | nil => exact h
  | cons kv rest ih =>
    rw [applyFilters_cons] at h
    exact mem_applyOneFilter (ih h)

theorem visibleTo_siswa {u : Identity} {x : JSVal} {l : List JSVal}
    (hrole : u.role = "siswa") (h : x ∈ visibleTo (some u) l) :
    strictEq (getProp x "approved") (.bool true) = true := by
  simp only [visibleTo, hrole] at h
  simp at h
  exact h.2

/-! ## Sorting lemmas -/

theorem sortCompare_valid {a b : JSVal} {ta tb : Int}
    (ha : effTimestamp a = some ta) (hb : effTimestamp b = some tb) :
    sortCompare a b = tb - ta := by
  unfold sortCompare
  rw [ha, hb]

theorem jsSortRel_iff_keyLe {a b : JSVal}
    (ha : (effTimestamp a).isSome) (hb : (effTimestamp b).isSome) :
    jsSortRel a b ↔ keyLe a b := by
  obtain ⟨ta, hta⟩ := Option.isSome_iff_exists.mp ha
  obtain ⟨tb, htb⟩ := Option.isSome_iff_exists.mp hb
  unfold jsSortRel keyLe
  rw [sortCompare_valid hta htb, hta, htb]
  simp


theorem jsSortRel_of_same_key {k : Int} {a b : JSVal}
    (ha : effTimestamp a = some k) (hb : effTimestamp b = some k) :
    jsSortRel a b := by
  unfold jsSortRel
  rw [sortCompare_valid ha hb]
  omega

theorem pairwise_orderedInsert_key (a : JSVal) (l : List JSVal)
    (ha : (effTimestamp a).isSome) (hl : ∀ x ∈ l, (effTimestamp x).isSome)
    (hp : l.Pairwise keyLe) :
    (List.orderedInsert jsSortRel a l).Pairwise keyLe := by
  induction l with
  | nil => simp [List.orderedInsert, List.Pairwise.nil]
  | cons b m ih =>
    have hb : (effTimestamp b).isSome := hl b (List.mem_cons_self b m)
    obtain ⟨hb1, hp'⟩ := List.pairwise_cons.mp hp
    simp only [List.orderedInsert]
    by_cases hab : jsSortRel a b
    · rw [if_pos hab]
      refine List.pairwise_cons.mpr ⟨?_, hp⟩
      intro y hy
      rcases List.mem_cons.mp hy with rfl | hym
      · exact (jsSortRel_iff_keyLe ha hb).mp hab
      · have h1 : keyLe a b := (jsSortRel_iff_keyLe ha hb).mp hab
        have h2 : keyLe b y := hb1 y hym
        exact le_trans h2 h1
    · rw [if_neg hab]
      have ihr := ih (fun x hx => hl x (List.mem_cons_of_mem b hx)) hp'
      refine List.pairwise_cons.mpr ⟨?_, ihr⟩
      intro y hy
      rcases (List.mem_orderedInsert jsSortRel).mp hy with hya | hym
      · subst hya
        have : ¬ keyLe y b := fun hk => hab ((jsSortRel_iff_keyLe ha hb).mpr hk)
        unfold keyLe at this ⊢
        omega
      · exact hb1 y hym

theorem pairwise_insertionSort_key (l : List JSVal)
    (hl : ∀ x ∈ l, (effTimestamp x).isSome) :
    (List.insertionSort jsSortRel l).Pairwise keyLe := by
  induction l with
  | nil => simp [List.insertionSort]
  | cons a m ih =>
    simp only [List.insertionSort]
    refine pairwise_orderedInsert_key a _ (hl a (List.mem_cons_self a m)) ?_ ?_
    · intro x hx
      exact hl x (List.mem_cons_of_mem a ((List.mem_insertionSort jsSortRel).mp hx))
    · exact ih (fun x hx => hl x (List.mem_cons_of_mem a hx))

theorem filter_orderedInsert_ts (k : Int) (a : JSVal) (l : List JSVal) :
    (List.orderedInsert jsSortRel a l).filter (tsKeyP k)
      = if tsKeyP k a then a :: l.filter (tsKeyP k) else l.filter (tsKeyP k) := by
  induction l with
  | nil =>
    cases hpa : tsKeyP k a <;> simp [List.orderedInsert, List.filter, hpa]
  | cons b m ih =>
    simp only [List.orderedInsert]
    by_cases hab : jsSortRel a b
    · rw [if_pos hab]
      cases hpa : tsKeyP k a <;> cases hpb : tsKeyP k b <;>
        simp [List.filter_cons, hpa, hpb]
    · rw [if_neg hab]
      cases hpa : tsKeyP k a
      · simp only [List.filter_cons]
        cases hpb : tsKeyP k b <;> simp [ih, hpa]
      · have hpb : tsKeyP k b = false := by
          cases hpb' : tsKeyP k b
          · rfl
          · exfalso
            apply hab
            exact jsSortRel_of_same_key
              (by simpa [tsKeyP] using hpa) (by simpa [tsKeyP] using hpb')
        simp [List.filter_cons, hpa, hpb, ih]

theorem filter_insertionSort_ts (k : Int) (l : List JSVal) :
    (List.insertionSort jsSortRel l).filter (tsKeyP k) = l.filter (tsKeyP k) := by
  induction l with
  | nil => simp [List.insertionSort]
  | cons a m ih =>
    simp only [List.insertionSort]
    rw [filter_orderedInsert_ts]
    cases hpa : tsKeyP k a <;> simp [ih, hpa, List.filter_cons]

/-! ## Validator lemmas -/

theorem ok_bind {α β γ : Type} (a : α) (f : α → Except γ β) :
    (Except.ok a : Except γ α) >>= f = f a := rfl

theorem jsGet_not_nullish {v : JSVal} (h : nullish v = false) (k : String) :
    jsGet v k = .ok (getProp v k) := by
  cases v <;> simp_all [nullish, jsGet]

theorem firstMissing_eq {v : JSVal} (h : nullish v = false) :
    ∀ fields : List String, firstMissing v fields = .ok (firstFalsyField v fields) := by
  intro fields
  induction fields with
  | nil => rfl
  | cons f fs ih =>
    unfold firstMissing firstFalsyField
    rw [jsGet_not_nullish h, ok_bind]
    split
    · rfl
    · exact ih

theorem validateGuruData_missing (minLen : Nat) (users : List (String × JSVal))
    {data : JSVal} {g : String} (h : nullish data = false)
    (hg : firstFalsyField data ["title", "nip", "mapel", "role", "username", "password"] = some g) :
    validateGuruData minLen users data = .ok (missingField g) := by
  unfold validateGuruData
  rw [firstMissing_eq h, hg]
  rfl

theorem validateGuruData_total (minLen : Nat) (users : List (String × JSVal))
    {data : JSVal} (h : nullish data = false) :
    ∃ r, validateGuruData minLen users data = .ok r := by
  cases hg : firstFalsyField data ["title", "nip", "mapel", "role", "username", "password"] with
  | some g => exact ⟨_, validateGuruData_missing minLen users h hg⟩
  | none =>
    unfold validateGuruData
    rw [firstMissing_eq h, hg]
    simp only [jsGet_not_nullish h, ok_bind]
    repeat' split
    all_goals exact ⟨_, rfl⟩

theorem validateSiswaData_missing {data : JSVal} {g : String}
    (h : nullish data = false)
    (hg : firstFalsyField data ["title", "nisn", "jenis_kelamin", "class"] = some g) :
    validateSiswaData data = .ok (missingField g) := by
  unfold validateSiswaData
  rw [firstMissing_eq h, hg]
  rfl

theorem validateSiswaData_total {data : JSVal} (h : nullish data = false) :
    ∃ r, validateSiswaData data = .ok r := by
  cases hg : firstFalsyField data ["title", "nisn", "jenis_kelamin", "class"] with
  | some g => exact ⟨_, validateSiswaData_missing h hg⟩
  | none =>
    unfold validateSiswaData
    rw [firstMissing_eq h, hg]
    simp only [jsGet_not_nullish h, ok_bind]
    repeat' split
    all_goals exact ⟨_, rfl⟩

theorem validateKelasData_missing {data : JSVal} {g : String}
    (h : nullish data = false)
    (hg : firstFalsyField data ["title", "tingkat", "jurusan"] = some g) :
    validateKelasData data = .ok (missingField g) := by
  unfold validateKelasData
  rw [firstMissing_eq h, hg]
  rfl

theorem validateKelasData_total {data : JSVal} (h : nullish data = false) :
    ∃ r, validateKelasData data = .ok r := by
  cases hg : firstFalsyField data ["title", "tingkat", "jurusan"] with
  | some g => exact ⟨_, validateKelasData_missing h hg⟩
  | none =>
    unfold validateKelasData
    rw [firstMissing_eq h, hg]
    simp only [jsGet_not_nullish h, ok_bind]
    repeat' split
    all_goals exact ⟨_, rfl⟩

theorem validateIntraData_missing {data : JSVal} {g : String}
    (h : nullish data = false)
    (hg : firstFalsyField data ["judul_modul", "mata_pelajaran", "kelas", "fase", "penulis"] = some g) :
    validateIntraData data = .ok (missingField g) := by
  unfold validateIntraData
  rw [firstMissing_eq h, hg]
  rfl

theorem validateIntraData_total {data : JSVal} (h : nullish data = false) :
    ∃ r, validateIntraData data = .ok r := by
  cases hg : firstFalsyField data ["judul_modul", "mata_pelajaran", "kelas", "fase", "penulis"] with
  | some g => exact ⟨_, validateIntraData_missing h hg⟩
  | none =>
    unfold validateIntraData
    rw [firstMissing_eq h, hg]
    exact ⟨_, rfl⟩

theorem validateJurnalData_missing {data : JSVal} {g : String}
    (h : nullish data = false)
    (hg : firstFalsyField data ["nama_guru", "kelas", "hari", "tanggal", "mata_pelajaran", "materi_pokok"] = some g) :
    validateJurnalData data = .ok (missingField g) := by
  unfold validateJurnalData
  rw [firstMissing_eq h, hg]
  rfl

theorem validateJurnalData_total {data : JSVal} (h : nullish data = false) :
    ∃ r, validateJurnalData data = .ok r := by
  cases hg : firstFalsyField data ["nama_guru", "kelas", "hari", "tanggal", "mata_pelajaran", "materi_pokok"] with
  | some g => exact ⟨_, validateJurnalData_missing h hg⟩
  | none =>
    unfold validateJurnalData
    rw [firstMissing_eq h, hg]
    simp only [jsGet_not_nullish h, ok_bind]
    repeat' split
    all_goals exact ⟨_, rfl⟩

theorem validateAbsensiData_missing {data : JSVal} {g : String}
    (h : nullish data = false)
    (hg : firstFalsyField data ["student_name", "class", "status", "date"] = some g) :
    validateAbsensiData data = .ok (missingField g) := by
  unfold validateAbsensiData
  rw [firstMissing_eq h, hg]
  rfl

theorem validateAbsensiData_total {data : JSVal} (h : nullish data = false) :
    ∃ r, validateAbsensiData data = .ok r := by
  cases hg : firstFalsyField data ["student_name", "class", "status", "date"] with
  | some g => exact ⟨_, validateAbsensiData_missing h hg⟩
  | none =>
    unfold validateAbsensiData
    rw [firstMissing_eq h, hg]
    simp only [jsGet_not_nullish h, ok_bind]
    repeat' split
    all_goals exact ⟨_, rfl⟩

theorem validateNilaiData_missing {data : JSVal} {g : String}
    (h : nullish data = false)
    (hg : firstFalsyField data ["student_name", "class", "mata_pelajaran", "jenis_penilaian", "nilai", "date"] = some g) :
    validateNilaiData data = .ok (missingField g) := by
  unfold validateNilaiData
  rw [firstMissing_eq h, hg]
  rfl

theorem validateNilaiData_total {data : JSVal} (h : nullish data = false) :
    ∃ r, validateNilaiData data = .ok r := by
  cases hg : firstFalsyField data ["student_name", "class", "mata_pelajaran", "jenis_penilaian", "nilai", "date"] with
  | some g => exact ⟨_, validateNilaiData_missing h hg⟩
  | none =>
    unfold validateNilaiData
    rw [firstMissing_eq h, hg]
    simp only [jsGet_not_nullish h, ok_bind]
    repeat' split
    all_goals exact ⟨_, rfl⟩

theorem validatePerilakuData_missing {data : JSVal} {g : String}
    (h : nullish data = false)
    (hg : firstFalsyField data ["student_name", "class", "jenis_perilaku", "catatan", "date"] = some g) :
    validatePerilakuData data = .ok (missingField g) := by
  unfold validatePerilakuData
  rw [firstMissing_eq h, hg]
  rfl

theorem validatePerilakuData_total {data : JSVal} (h : nullish data = false) :
    ∃ r, validatePerilakuData data = .ok r := by
  cases hg : firstFalsyField data ["student_name", "class", "jenis_perilaku", "catatan", "date"] with
  | some g => exact ⟨_, validatePerilakuData_missing h hg⟩
  | none =>
    unfold validatePerilakuData
    rw [firstMissing_eq h, hg]
    simp only [jsGet_not_nullish h, ok_bind]
    repeat' split
    all_goals exact ⟨_, rfl⟩

theorem validateBKAbsensiData_missing {data : JSVal} {g : String}
    (h : nullish data = false)
    (hg : firstFalsyField data ["student_name", "class", "status", "date", "waktu"] = some g) :
    validateBKAbsensiData data = .ok (missingField g) := by
  unfold validateBKAbsensiData
  rw [firstMissing_eq h, hg]
  rfl

theorem validateBKAbsensiData_total {data : JSVal} (h : nullish data = false) :
    ∃ r, validateBKAbsensiData data = .ok r := by
  cases hg : firstFalsyField data ["student_name", "class", "status", "date", "waktu"] with
  | some g => exact ⟨_, validateBKAbsensiData_missing h hg⟩
  | none =>
    unfold validateBKAbsensiData
    rw [firstMissing_eq h, hg]
    simp only [jsGet_not_nullish h, ok_bind]
    repeat' split
    all_goals exact ⟨_, rfl⟩

theorem validateBKPelanggaranData_missing {data : JSVal} {g : String}
    (h : nullish data = false)
    (hg : firstFalsyField data ["student_name", "class", "kategori_pelanggaran", "jenis_pelanggaran", "lokasi", "kronologi", "tindak_lanjut"] = some g) :
    validateBKPelanggaranData data = .ok (missingField g) := by
  unfold validateBKPelanggaranData
  rw [firstMissing_eq h, hg]
  rfl

theorem validateBKPelanggaranData_total {data : JSVal} (h : nullish data = false) :
    ∃ r, validateBKPelanggaranData data = .ok r := by
  cases hg : firstFalsyField data ["student_name", "class", "kategori_pelanggaran", "jenis_pelanggaran", "lokasi", "kronologi", "tindak_lanjut"] with
  | some g => exact ⟨_, validateBKPelanggaranData_missing h hg⟩
  | none =>
    unfold validateBKPelanggaranData
    rw [firstMissing_eq h, hg]
    simp only [jsGet_not_nullish h, ok_bind]
    repeat' split
    all_goals exact ⟨_, rfl⟩

theorem validateData_missing {type : String} (htype : type ∈ knownTypes)
    (minLen : Nat) (users : List (String × JSVal)) {data : JSVal} {g : String}
    (h : nullish data = false)
    (hg : firstFalsyField data (requiredFields type) = some g) :
    validateData minLen users type data = .ok (missingField g) := by
  simp only [knownTypes, List.mem_cons, List.not_mem_nil, or_false] at htype
  rcases htype with rfl | rfl | rfl | rfl | rfl | rfl | rfl | rfl | rfl | rfl
  · exact validateGuruData_missing minLen users h hg
  · exact validateSiswaData_missing h hg
  · exact validateKelasData_missing h hg
  · exact validateIntraData_missing h hg
  · exact validateJurnalData_missing h hg
  · exact validateAbsensiData_missing h hg
  · exact validateNilaiData_missing h hg
  · exact validatePerilakuData_missing h hg
  · exact validateBKAbsensiData_missing h hg
  · exact validateBKPelanggaranData_missing h hg

theorem validateData_total (minLen : Nat) (users : List (String × JSVal))
    (type : String) {data : JSVal} (h : nullish data = false) :
    ∃ r, validateData minLen users type data = .ok r := by
  unfold validateData
  split
  · exact validateGuruData_total minLen users h
  · exact validateSiswaData_total h
  · exact validateKelasData_total h
  · exact validateIntraData_total h
  · exact validateJurnalData_total h
  · exact validateAbsensiData_total h
  · exact validateNilaiData_total h
  · exact validatePerilakuData_total h
  · exact validateBKAbsensiData_total h
  · exact validateBKPelanggaranData_total h
  · simp only [jsGet_not_nullish h, ok_bind]
    repeat' split
    all_goals exact ⟨_, rfl⟩

theorem validateData_nullish {type : String} (htype : type ∈ knownTypes)
    (minLen : Nat) (users : List (String × JSVal)) {data : JSVal}
    (h : nullish data = true) :
    validateData minLen users type data = .error () := by
  simp only [knownTypes, List.mem_cons, List.not_mem_nil, or_false] at htype
  rcases htype with rfl | rfl | rfl | rfl | rfl | rfl | rfl | rfl | rfl | rfl <;>
    cases data <;> first | rfl | simp_all [nullish]

/-! ## Lemmas about the required-field scan and property deletion -/

theorem firstFalsyField_all_truthy {data : JSVal} {fields : List String}
    (h : firstFalsyField data fields = none) :
    ∀ f ∈ fields, falsy (getProp data f) = false := by
  induction fields with
  | nil => intro f hf; cases hf
  | cons g rest ih =>
    unfold firstFalsyField at h
    intro f hf
    by_cases hg : falsy (getProp data g) = true
    · rw [if_pos hg] at h; cases h
    · rcases List.mem_cons.mp hf with rfl | hfr
      · exact Bool.not_eq_true _ ▸ (by simpa using hg)
      · rw [if_neg hg] at h
        exact ih h f hfr

theorem lookupField_filter_ne (fs : List (String × JSVal)) (f : String) :
    lookupField (fs.filter (fun kv => kv.1 ≠ f)) f = .undefined := by
  induction fs with
  | nil => rfl
  | cons kv rest ih =>
    obtain ⟨k, v⟩ := kv
    simp only [List.filter_cons]
    by_cases hk : k = f
    · rw [if_neg (by simp [hk])]
      exact ih
    · rw [if_pos (by simp [hk])]
      simp only [lookupField]
      rw [if_neg hk]
      exact ih

theorem getProp_delProp_same (v : JSVal) (f : String) :
    getProp (delProp v f) f = .undefined := by
  cases v <;> try rfl
  exact lookupField_filter_ne _ f

theorem lookupField_filter_other (fs : List (String × JSVal)) {f g : String}
    (hg : g ≠ f) :
    lookupField (fs.filter (fun kv => kv.1 ≠ f)) g = lookupField fs g := by
  induction fs with
  | nil => rfl
  | cons kv rest ih =>
    obtain ⟨k, v⟩ := kv
    simp only [List.filter_cons]
    by_cases hk : k = f
    · rw [if_neg (by simp [hk]), ih]
      simp only [lookupField]
      rw [if_neg (fun hc : k = g => hg (hc ▸ hk))]
    · rw [if_pos (by simp [hk])]
      simp only [lookupField]
      by_cases hkg : k = g
      · rw [if_pos hkg, if_pos hkg]
      · rw [if_neg hkg, if_neg hkg, ih]

theorem getProp_delProp_other (v : JSVal) {f g : String} (hg : g ≠ f) :
    getProp (delProp v f) g = getProp v g := by
  cases v <;> try rfl
  exact lookupField_filter_other _ hg

theorem nullish_delProp (v : JSVal) (f : String) :
    nullish (delProp v f) = nullish v := by
  cases v <;> rfl

theorem firstFalsyField_delProp {data : JSVal} {fields : List String} {f : String}
    (hall : firstFalsyField data fields = none) (hf : f ∈ fields) :
    firstFalsyField (delProp data f) fields = some f := by
  induction fields with
  | nil => cases hf
  | cons g rest ih =>
    have hheads := firstFalsyField_all_truthy hall g (List.mem_cons_self g rest)
    have hrest : firstFalsyField data rest = none := by
      unfold firstFalsyField at hall
      rwa [if_neg (by simp [hheads])] at hall
    by_cases hgf : g = f
    · subst hgf
      unfold firstFalsyField
      rw [getProp_delProp_same]
      simp [falsy]
    · unfold firstFalsyField
      rw [getProp_delProp_other data hgf]
      rw [if_neg (by simp [hheads])]
      exact ih hrest (by rcases List.mem_cons.mp hf with rfl | hr; exact absurd rfl hgf; exact hr)

theorem firstFalsyField_unique {data : JSVal} {fields : List String} {f : String}
    (hf : f ∈ fields) (hfalsy : falsy (getProp data f) = true)
    (hothers : ∀ g ∈ fields, g ≠ f → falsy (getProp data g) = false) :
    firstFalsyField data fields = some f := by
  induction fields with
  | nil => cases hf
  | cons k rest ih =>
    by_cases hkf : k = f
    · subst hkf
      unfold firstFalsyField
      rw [if_pos hfalsy]
    · have hk := hothers k (List.mem_cons_self k rest) hkf
      unfold firstFalsyField
      rw [if_neg (by simp [hk])]
      exact ih
        (by rcases List.mem_cons.mp hf with rfl | hr; exact absurd rfl hkf; exact hr)
        (fun g hg hgf => hothers g (List.mem_cons_of_mem k hg) hgf)

theorem firstFalsyField_exists {data : JSVal} {fields : List String} {f : String}
    (hf : f ∈ fields) (hfalsy : falsy (getProp data f) = true) :
    ∃ g, firstFalsyField data fields = some g ∧ g ∈ fields ∧
      falsy (getProp data g) = true := by
  induction fields with
  | nil => cases hf
  | cons k rest ih =>
    cases hk : falsy (getProp data k) with
    | true =>
      refine ⟨k, ?_, List.mem_cons_self k rest, hk⟩
      unfold firstFalsyField
      rw [if_pos hk]
    | false =>
      have hfr : f ∈ rest := by
        rcases List.mem_cons.mp hf with rfl | hr
        · rw [hfalsy] at hk; cases hk
        · exact hr
      obtain ⟨g, h1, h2, h3⟩ := ih hfr
      refine ⟨g, ?_, List.mem_cons_of_mem k h2, h3⟩
      unfold firstFalsyField
      rw [if_neg (by simp [hk]), h1]

/-! ## Claim theorems -/

/-- C3: after every successful create, update or delete and after every
resynchronization, the query cache is empty; and a query against an empty
cache always misses, hence recomputes from the in-memory collection. -/
theorem c3_mutations_clear_cache :
    (∀ cfg s type d bk nowIso r, (createData cfg s type d bk nowIso).1 = .ok r →
      ((createData cfg s type d bk nowIso).2).cache = [])
    ∧ (∀ s id d bk nowIso r, (updateData s id d bk nowIso).1 = .ok r →
      ((updateData s id d bk nowIso).2).cache = [])
    ∧ (∀ s id bk r, (deleteData s id bk).1 = .ok r →
      ((deleteData s id bk).2).cache = [])
    ∧ (∀ s data, (handleDataChange s data).cache = [])
    ∧ (∀ cfg s key now, s.cache = [] → getCachedData cfg s key now = none) := by
  refine ⟨?_, ?_, ?_, fun s data => rfl, getCachedData_of_empty⟩
  · intro cfg s type d bk nowIso r
    unfold createData
    repeat' split
    all_goals try (dsimp only; split)
    all_goals intro h
    all_goals first | rfl | simp at h
  · intro s id d bk nowIso r
    unfold updateData
    repeat' split
    all_goals try (dsimp only; split)
    all_goals intro h
    all_goals first | rfl | simp at h
  · intro s id bk r
    unfold deleteData
    repeat' split
    all_goals intro h
    all_goals first | rfl | simp at h

/-- Witness for C3: a concrete successful create clears a state whose
cache held one stale entry. -/
theorem c3_witness :
    ((createData c3wCfg c3wState "catatan" c3wData (fun v => ⟨true, v⟩) "2024-01-01").2).cache = []
    ∧ c3wState.cache.length = 1 :=
  ⟨c3_mutations_clear_cache.1 c3wCfg c3wState "catatan" c3wData
    (fun v => ⟨true, v⟩) "2024-01-01" _ rfl, rfl⟩

/-- C4: the mutation gate.  A non-admin identity acting on a record with a
different author gets the permission error from both update and delete,
and the gate predicates pass exactly for an admin role or a matching
author, for any record. -/
theorem c4_mutation_gate :
    (∀ s id d bk nowIso u rec, s.currentUser = some u → u.role ≠ "admin" →
      findByBackendId s.allData id = some rec →
      strictEq (getProp rec "author") (.str u.name) = false →
      updateData s id d bk nowIso = (.error "Tidak memiliki izin untuk mengupdate data ini", s)
      ∧ deleteData s id bk = (.error "Tidak memiliki izin untuk menghapus data ini", s))
    ∧ (∀ s rec u, s.currentUser = some u →
      ((canUpdateData s rec = true ↔
        u.role = "admin" ∨ strictEq (getProp rec "author") (.str u.name) = true)
      ∧ (canDeleteData s rec = true ↔
        u.role = "admin" ∨ strictEq (getProp rec "author") (.str u.name) = true))) := by
  constructor
  · intro s id d bk nowIso u rec hu hrole hfound hauthor
    have hgate : canUpdateData s rec = false := by
      unfold canUpdateData
      rw [hu]
      simp only [if_neg hrole]
      exact hauthor
    have hgate2 : canDeleteData s rec = false := by
      unfold canDeleteData
      rw [hu]
      simp only [if_neg hrole]
      exact hauthor
    constructor
    · unfold updateData
      rw [hfound]
      dsimp only
      rw [hgate]
      simp
    · unfold deleteData
      rw [hfound]
      dsimp only
      rw [hgate2]
      simp
  · intro s rec u hu
    constructor
    · unfold canUpdateData
      rw [hu]
      by_cases hr : u.role = "admin" <;> simp [hr]
    · unfold canDeleteData
      rw [hu]
      by_cases hr : u.role = "admin" <;> simp [hr]

/-- Witness for C4: a teacher-role identity cannot update or delete a
record authored by someone else. -/
theorem c4_witness :
    updateData c4wState (.str "id1") [] (fun v => ⟨true, v⟩) "2024-06-01"
      = (.error "Tidak memiliki izin untuk mengupdate data ini", c4wState)
    ∧ deleteData c4wState (.str "id1") (fun v => ⟨true, v⟩)
      = (.error "Tidak memiliki izin untuk menghapus data ini", c4wState) :=
  c4_mutation_gate.1 c4wState (.str "id1") [] (fun v => ⟨true, v⟩) "2024-06-01"
    ⟨"guru", "Budi"⟩ c4wRec rfl (by decide) rfl (by decide)

/-- C5: createData never touches the in-memory collection (on any
outcome), and when validation and the capacity check pass but the backend
reports failure, the generic save-failed error is propagated. -/
theorem c5_create_preserves_collection :
    (∀ cfg s type d bk nowIso, ((createData cfg s type d bk nowIso).2).allData = s.allData)
    ∧ (∀ cfg s type d bk nowIso u v, s.currentUser = some u →
        validateData cfg.password_min_length s.users type (.obj d) = .ok v →
        v.valid = true → s.allData.length < cfg.max_data_items →
        (bk (buildNewData type d u nowIso)).isOk = false →
        (createData cfg s type d bk nowIso).1 = .error "Gagal menyimpan data") := by
  constructor
  · intro cfg s type d bk nowIso
    unfold createData
    repeat' split
    all_goals try (dsimp only; split)
    all_goals rfl
  · intro cfg s type d bk nowIso u v hu hval hvalid hcap hbk
    unfold createData
    rw [hval]
    dsimp only
    rw [if_neg (by simp [hvalid]), if_neg (not_le.mpr hcap), hu]
    dsimp only
    rw [if_neg (by simp [hbk])]

/-- Witness for C5: a concrete failing backend call yields the generic
error and leaves the collection untouched. -/
theorem c5_witness :
    (createData c5wCfg c5wState "catatan" c5wData (fun v => ⟨false, v⟩) "2024-01-01").1
      = .error "Gagal menyimpan data"
    ∧ ((createData c5wCfg c5wState "catatan" c5wData (fun v => ⟨false, v⟩) "2024-01-01").2).allData
      = c5wState.allData :=
  ⟨c5_create_preserves_collection.2 c5wCfg c5wState "catatan" c5wData
      (fun v => ⟨false, v⟩) "2024-01-01" ⟨"guru", "Budi"⟩ ⟨true, none⟩
      rfl rfl rfl (by decide) rfl,
   c5_create_preserves_collection.1 c5wCfg c5wState "catatan" c5wData
      (fun v => ⟨false, v⟩) "2024-01-01"⟩

/-- C9: updateData invokes no validator.  Once the record is found and the
mutation gate passes, the outcome is entirely decided by the backend's
answer on the merged record `{...existing, ...data, updatedAt}` — there is
no validity hypothesis anywhere. -/
theorem c9_update_never_validates (s : DSState) (id : JSVal)
    (d : List (String × JSVal)) (bk : JSVal → BackendResult) (nowIso : String)
    (rec : JSVal) (hfound : findByBackendId s.allData id = some rec)
    (hgate : canUpdateData s rec = true) :
    updateData s id d bk nowIso =
      (if (bk (mergeForUpdate rec d nowIso)).isOk
        then (.ok (bk (mergeForUpdate rec d nowIso)).data, invalidateCache s)
        else (.error "Gagal mengupdate data", s)) := by
  unfold updateData
  rw [hfound]
  dsimp only
  rw [hgate]
  simp

/-- Witness for C9: a merge that drives the score to 150 — rejected by the
create-time validator — is still sent and accepted. -/
theorem c9_witness :
    (updateData c9wState (.str "g1") c9wUpd (fun v => ⟨true, v⟩) "2024-06-01").1
      = .ok (mergeForUpdate c9wRec c9wUpd "2024-06-01")
    ∧ validateNilaiData (mergeForUpdate c9wRec c9wUpd "2024-06-01")
      = .ok ⟨false, some "Nilai harus antara 0 dan 100"⟩ := by
  constructor
  · rw [c9_update_never_validates c9wState (.str "g1") c9wUpd
      (fun v => ⟨true, v⟩) "2024-06-01" c9wRec rfl rfl]
    rfl
  · rfl

/-- C6 (amended): validate is total and returns a structured result for
every candidate that is not `null`/`undefined`; on a nullish candidate the
very first property access throws (see the counterexample). -/
theorem c6_validate_total (minLen : Nat) (users : List (String × JSVal))
    (type : String) (data : JSVal) (h : nullish data = false) :
    ∃ r, validateData minLen users type data = .ok r :=
  validateData_total minLen users type h

/-- Witness for C6: a plain empty-object candidate gets a structured
answer for a dispatched type. -/
theorem c6_witness :
    ∃ r, validateData 8 [] "guru" (.obj []) = .ok r :=
  c6_validate_total 8 [] "guru" (.obj []) rfl

/-- Counterexample for C6 as stated: a `null` candidate makes the guru
validator throw a TypeError on its first `data[field]` access, so
validation is not total on all inputs. -/
theorem c6_counterexample :
    validateData 8 [] "guru" .null = .error ()
    ∧ validateData 8 [] "tak_dikenal" .null = .error () :=
  ⟨rfl, rfl⟩

/-- C7: for every dispatched record type, the missing-required-field scan
runs before the domain checks — a candidate whose first falsy required
field is `g` is rejected with exactly the missing-field message naming
`g` — and deleting any single required field from a field set that
validates flips the result to the missing-field rejection naming it. -/
theorem c7_missing_before_domain :
    ∀ type ∈ knownTypes, ∀ (minLen : Nat) (users : List (String × JSVal)) (data : JSVal),
      (∀ g, nullish data = false →
        firstFalsyField data (requiredFields type) = some g →
        validateData minLen users type data = .ok (missingField g))
      ∧ (∀ f m, validateData minLen users type data = .ok ⟨true, m⟩ →
          f ∈ requiredFields type →
          validateData minLen users type (delProp data f) = .ok (missingField f)) := by
  intro type htype minLen users data
  refine ⟨fun g h hg => validateData_missing htype minLen users h hg, ?_⟩
  intro f m hv hf
  have hnn : nullish data = false := by
    cases hc : nullish data
    · rfl
    · rw [validateData_nullish htype minLen users hc] at hv
      cases hv
  have hnone : firstFalsyField data (requiredFields type) = none := by
    cases hc : firstFalsyField data (requiredFields type) with
    | none => rfl
    | some g =>
      rw [validateData_missing htype minLen users hnn hc] at hv
      simp [missingField] at hv
  exact validateData_missing htype minLen users
    (by rw [nullish_delProp]; exact hnn)
    (firstFalsyField_delProp hnone hf)

/-- Witness for C7: dropping `student_name` from a fully valid grade
record yields the missing-field message for it. -/
theorem c7_witness :
    validateData 8 [] "nilai" (delProp c7wRec "student_name")
      = .ok (missingField "student_name") :=
  (c7_missing_before_domain "nilai" (by decide) 8 [] c7wRec).2
    "student_name" none rfl (by decide)

/-- C8: the password checks run in the fixed order length, lowercase,
uppercase, digit; the first failing check's message is returned and a
password passing all four is reported valid. -/
theorem c8_password_order (minLength : Nat) (pw : String) :
    (pw.length < minLength →
      validatePassword minLength (.str pw)
        = ⟨false, some ("Password minimal " ++ toString minLength ++ " karakter")⟩)
    ∧ (minLength ≤ pw.length → hasLower pw = false →
      validatePassword minLength (.str pw)
        = ⟨false, some "Password harus mengandung huruf kecil"⟩)
    ∧ (minLength ≤ pw.length → hasLower pw = true → hasUpper pw = false →
      validatePassword minLength (.str pw)
        = ⟨false, some "Password harus mengandung huruf besar"⟩)
    ∧ (minLength ≤ pw.length → hasLower pw = true → hasUpper pw = true →
        hasDigitChar pw = false →
      validatePassword minLength (.str pw)
        = ⟨false, some "Password harus mengandung angka"⟩)
    ∧ (minLength ≤ pw.length → hasLower pw = true → hasUpper pw = true →
        hasDigitChar pw = true →
      validatePassword minLength (.str pw) = ⟨true, some "Password kuat"⟩) := by
  refine ⟨fun h1 => ?_, fun h1 h2 => ?_, fun h1 h2 h3 => ?_,
    fun h1 h2 h3 h4 => ?_, fun h1 h2 h3 h4 => ?_⟩
  · unfold validatePassword
    rw [if_pos (by simp [jsLength, lengthLt, h1])]
  · unfold validatePassword
    rw [if_neg (by simp [jsLength, lengthLt]; omega),
      if_pos (by simp [jsToString, h2])]
  · unfold validatePassword
    rw [if_neg (by simp [jsLength, lengthLt]; omega),
      if_neg (by simp [jsToString, h2]), if_pos (by simp [jsToString, h3])]
  · unfold validatePassword
    rw [if_neg (by simp [jsLength, lengthLt]; omega),
      if_neg (by simp [jsToString, h2]), if_neg (by simp [jsToString, h3]),
      if_pos (by simp [jsToString, h4])]
  · unfold validatePassword
    rw [if_neg (by simp [jsLength, lengthLt]; omega),
      if_neg (by simp [jsToString, h2]), if_neg (by simp [jsToString, h3]),
      if_neg (by simp [jsToString, h4])]

/-- Witness for C8, one instance per branch: a short password fails on
length first; one lacking only lowercase letters gets the lowercase
message even though uppercase and digits are present; and a password
meeting all four checks is valid. -/
theorem c8_witness :
    validatePassword 8 (.str "Ab1") = ⟨false, some "Password minimal 8 karakter"⟩
    ∧ validatePassword 8 (.str "ABCDEFG1")
      = ⟨false, some "Password harus mengandung huruf kecil"⟩
    ∧ validatePassword 8 (.str "abcdefg1")
      = ⟨false, some "Password harus mengandung huruf besar"⟩
    ∧ validatePassword 8 (.str "abcABCde")
      = ⟨false, some "Password harus mengandung angka"⟩
    ∧ validatePassword 8 (.str "abcABC12") = ⟨true, some "Password kuat"⟩ :=
  ⟨(c8_password_order 8 "Ab1").1 (by decide),
   (c8_password_order 8 "ABCDEFG1").2.1 (by decide) (by decide),
   (c8_password_order 8 "abcdefg1").2.2.1 (by decide) (by decide) (by decide),
   (c8_password_order 8 "abcABCde").2.2.2.1 (by decide) (by decide) (by decide) (by decide),
   (c8_password_order 8 "abcABC12").2.2.2.2 (by decide) (by decide) (by decide) (by decide)⟩

/-- C10: every validator treats a falsy required-field value as missing:
if some required field of a dispatched type is falsy the result is the
missing-field rejection for the first such field, and when all other
required fields are truthy the message names exactly that field. -/
theorem c10_falsy_is_missing :
    ∀ type ∈ knownTypes, ∀ (minLen : Nat) (users : List (String × JSVal))
      (data : JSVal) (f : String),
      nullish data = false → f ∈ requiredFields type →
      falsy (getProp data f) = true →
      (∃ g, g ∈ requiredFields type ∧ falsy (getProp data g) = true ∧
        validateData minLen users type data = .ok (missingField g))
      ∧ ((∀ g ∈ requiredFields type, g ≠ f → falsy (getProp data g) = false) →
          validateData minLen users type data = .ok (missingField f)) := by
  intro type htype minLen users data f hnn hf hfalsy
  constructor
  · obtain ⟨g, h1, h2, h3⟩ := firstFalsyField_exists hf hfalsy
    exact ⟨g, h2, h3, validateData_missing htype minLen users hnn h1⟩
  · intro hothers
    exact validateData_missing htype minLen users hnn
      (firstFalsyField_unique hf hfalsy hothers)

/-- Witness for C10: the number 0 — a score inside the documented 0–100
range — is rejected as a missing `nilai` field. -/
theorem c10_witness :
    validateData 8 [] "nilai" c10wRec = .ok (missingField "nilai")
    ∧ getProp c10wRec "nilai" = .num 0 :=
  ⟨(c10_falsy_is_missing "nilai" (by decide) 8 [] c10wRec "nilai"
      rfl (by decide) rfl).2 (by decide), rfl⟩

/-- C1 (amended): on a cache miss — in particular whenever the cache is
disabled, empty, or expired for that key — every record a student-role
identity receives has `approved === true`, for every filter combination
and collection.  A cache hit bypasses this (see the counterexample). -/
theorem c1_siswa_only_approved_on_miss (cfg : Config) (s : DSState)
    (type : String) (filters : List (String × JSVal)) (now : Int) (u : Identity)
    (hu : s.currentUser = some u) (hrole : u.role = "siswa")
    (hmiss : getCachedData cfg s (cacheKey type filters) now = none) :
    ∀ r ∈ (getFilteredData cfg s type filters now).1,
      strictEq (getProp r "approved") (.bool true) = true := by
  have heq : (getFilteredData cfg s type filters now).1
      = List.insertionSort jsSortRel (queryPipeline s type filters) := by
    simp only [getFilteredData]
    rw [hmiss]
  intro r hr
  rw [heq] at hr
  have hr2 : r ∈ queryPipeline s type filters :=
    (List.mem_insertionSort jsSortRel).mp hr
  have hr3 : r ∈ visibleTo s.currentUser
      (s.allData.filter (fun d => strictEq (getProp d "type") (.str type))) :=
    mem_applyFilters hr2
  rw [hu] at hr3
  exact visibleTo_siswa hrole hr3

/-- Witness for C1 (amended): a student query on an empty cache returns
only the approved record of the two stored, and that record satisfies the
approval predicate. -/
theorem c1_witness :
    strictEq (getProp c1wRecA "approved") (.bool true) = true
    ∧ (getFilteredData c1Cfg c1wState "nilai" [] 0).1 = [c1wRecA] :=
  ⟨c1_siswa_only_approved_on_miss c1Cfg c1wState "nilai" [] 0 ⟨"siswa", "S"⟩
    rfl rfl rfl c1wRecA (List.Mem.head _), rfl⟩

/-- Counterexample for C1 as stated: the cache key has no identity
component and a hit is returned untouched, so after an admin's query
cached an unapproved record, the same query by a student-role identity
returns that record. -/
theorem c1_counterexample :
    c1SiswaState.currentUser = some ⟨"siswa", "Siswa/Orang Tua"⟩
    ∧ (getFilteredData c1Cfg c1SiswaState "nilai" [] 100).1 = [c1Rec]
    ∧ getProp c1Rec "approved" = .bool false :=
  ⟨rfl, rfl, rfl⟩

/-- C2 (amended): on a cache miss the query result is a permutation of the
pipeline's records, sorted descending by the code's effective timestamp —
`createdAt` falling back to `date`; `updatedAt` is never consulted (see
`effTimestamp` and the counterexample) — and the sort is stable: every
timestamp class keeps its original relative order unconditionally. -/
theorem c2_sort_createdAt_desc_stable (cfg : Config) (s : DSState)
    (type : String) (filters : List (String × JSVal)) (now : Int)
    (hmiss : getCachedData cfg s (cacheKey type filters) now = none) :
    ((getFilteredData cfg s type filters now).1).Perm (queryPipeline s type filters)
    ∧ ((∀ r ∈ queryPipeline s type filters, (effTimestamp r).isSome) →
        ((getFilteredData cfg s type filters now).1).Pairwise keyLe)
    ∧ (∀ k : Int, ((getFilteredData cfg s type filters now).1).filter (tsKeyP k)
        = (queryPipeline s type filters).filter (tsKeyP k)) := by
  have heq : (getFilteredData cfg s type filters now).1
      = List.insertionSort jsSortRel (queryPipeline s type filters) := by
    simp only [getFilteredData]
    rw [hmiss]
  refine ⟨?_, ?_, ?_⟩
  · rw [heq]
    exact List.perm_insertionSort jsSortRel _
  · intro hvalid
    rw [heq]
    exact pairwise_insertionSort_key _ hvalid
  · intro k
    rw [heq]
    exact filter_insertionSort_ts k _

/-- Witness for C2 (amended), on the spec's own example: records created
2024-01-01 / 2024-03-01 / 2024-02-01 come back newest-first. -/
theorem c2_witness :
    ((getFilteredData c2Cfg c2wState "t" [] 0).1).Pairwise keyLe
    ∧ (getFilteredData c2Cfg c2wState "t" [] 0).1 = [c2wRec2, c2wRec3, c2wRec1] :=
  ⟨(c2_sort_createdAt_desc_stable c2Cfg c2wState "t" [] 0 rfl).2.1 (by decide),
   rfl⟩

/-- Counterexample for C2 as stated: the comparator reads only
`createdAt || date`, so a record whose `updatedAt` is the newest of the
collection still sorts by its old `createdAt` and comes back last —
the result is not ordered by the spec's updatedAt-first effective
timestamp. -/
theorem c2_counterexample :
    getCachedData c2Cfg c2State (cacheKey "t" []) 0 = none
    ∧ (getFilteredData c2Cfg c2State "t" [] 0).1 = [c2RecB, c2RecA]
    ∧ (specEffTimestamp c2RecA).isSome = true
    ∧ (specEffTimestamp c2RecB).isSome = true
    ∧ (specEffTimestamp c2RecB).getD 0 < (specEffTimestamp c2RecA).getD 0 :=
  ⟨rfl, rfl, rfl, rfl, by decide⟩
